import Mathlib

/-!
Verification of the content-intelligence pipeline core (normalizer,
deduplicator, clustering, dimension scorers, score aggregation).

Shallow embedding conventions:
* A Python dict holding an item is modelled as an association list
  `List (String × String)`; `dict.get` is lookup of the first binding.
  Field values are modelled as strings (the pipeline's item fields are
  text fields produced by the feed layer).
* Python floats are modelled as exact rationals `ℚ`; every numeric
  comparison made by the code has a margin far above float rounding error.
* `dateutil.parser.parse` is an external library; it is modelled as an
  explicit parameter (`String → Option String` returning the ISO string,
  or `String → Option ℚ` returning a timestamp in seconds), `none`
  standing for a raised parse exception.
* `difflib.SequenceMatcher` (stdlib) is embedded directly: `b2j` with the
  autojunk rule, the dynamic-programming longest-match search with its
  strictly-greater tie-break, both extension passes (the junk set is empty
  since the matcher is built with `junk=None`), and the recursive
  matching-block decomposition summed into the Ratcliff/Obershelp ratio.
-/

set_option autoImplicit false

/-- An item record: a Python dict with string keys and string values,
as an association list whose first binding of a key is its value. -/
abbrev Item := List (String × String)

/-- `item.get(k)` — `none` when the key is absent. -/
def itemGet (item : Item) (k : String) : Option String :=
  List.lookup k item

/-- `item.get(k, d)`. -/
def itemGetD (item : Item) (k d : String) : String :=
  (itemGet item k).getD d

/-- Python `str.lower()` (ASCII case folding, which covers the
configured keyword tables and all inputs used here). -/
def pyLower (s : String) : String :=
  String.mk (s.toList.map Char.toLower)

/-- ASCII whitespace, as stripped by `str.strip()`. -/
def isSpaceChar (c : Char) : Bool :=
  c == ' ' || c == '\t' || c == '\n' || c == '\r'

/-- Drop leading whitespace characters. -/
def dropLeading : List Char → List Char
  | [] => []
  | c :: t => if isSpaceChar c then dropLeading t else c :: t

/-- Python `str.strip()` (whitespace removal at both ends). -/
def pyStrip (s : String) : String :=
  String.mk (List.reverse (dropLeading (List.reverse (dropLeading s.toList))))

/-- Does `hay` start with `needle`? -/
def listStarts : List Char → List Char → Bool
  | [], _ => true
  | _ :: _, [] => false
  | c :: cs, d :: ds => c == d && listStarts cs ds

/-- Does `needle` occur contiguously inside `hay`? -/
def listHas (needle : List Char) : List Char → Bool
  | [] => listStarts needle []
  | c :: t => listStarts needle (c :: t) || listHas needle t

/-- Python `needle in hay` on strings (substring containment). -/
def strContains (hay needle : String) : Bool :=
  listHas needle.toList hay.toList

namespace Normalizer

/-- The required canonical fields (`Normalizer.REQUIRED_FIELDS`). -/
def REQUIRED_FIELDS : List String :=
  ["title", "content", "url", "published_date", "source"]

/-- `item.get(k1) or item.get(k2) or ...`: the first key whose value is
present and truthy (non-empty); `none` when every candidate is falsy. -/
def firstTruthy (item : Item) : List String → Option String
  | [] => none
  | k :: ks =>
    match itemGet item k with
    | some v => if v = "" then firstTruthy item ks else some v
    | none => firstTruthy item ks

/-- `Normalizer.normalize_date` restricted to the string/None values the
pipeline feeds it: a falsy value or a parse failure yields the sentinel,
otherwise the parser's ISO rendering is returned. -/
def normalize_date (parse : String → Option String) (dateValue : Option String) : String :=
  match dateValue with
  | none => "No date available"
  | some s =>
    if s = "" then "No date available"
    else
      match parse s with
      | some iso => iso
      | none => "No date available"

/-- The `for key, value in item.items(): if key not in normalized: ...`
loop: append each binding whose key is not already present. -/
def addExtras : Item → Item → Item
  | normalized, [] => normalized
  | normalized, (k, v) :: rest =>
    if (itemGet normalized k).isSome then addExtras normalized rest
    else addExtras (normalized ++ [(k, v)]) rest

/-- `Normalizer.normalize_item`. -/
def normalize_item (parse : String → Option String) (item : Item) : Item :=
  let title := (itemGet item "title").getD "Untitled"
  let content := (firstTruthy item ["content", "summary", "description"]).getD ""
  let url := (firstTruthy item ["url", "link"]).getD ""
  let published_date :=
    normalize_date parse (firstTruthy item ["published_date", "published", "pubDate"])
  let source := (itemGet item "source").getD "Unknown"
  addExtras
    [("title", title), ("content", content), ("url", url),
     ("published_date", published_date), ("source", source)] item

/-- `Normalizer.normalize` (delegates to `normalize_item`). -/
def normalize (parse : String → Option String) (item : Item) : Item :=
  normalize_item parse item

end Normalizer

lemma itemGet_append_left {l₁ : Item} (l₂ : Item) {k : String}
    (h : (itemGet l₁ k).isSome = true) :
    itemGet (l₁ ++ l₂) k = itemGet l₁ k := by
  induction l₁ with
  | nil => simp [itemGet, List.lookup] at h
  | cons p t ih =>
    obtain ⟨a, b⟩ := p
    by_cases hk : k == a
    · simp [itemGet, List.lookup, hk]
    · simp only [itemGet, List.lookup, List.cons_append] at h ⊢
      rw [Bool.of_not_eq_true hk] at h ⊢
      exact ih h

lemma addExtras_get {k : String} (rest : Item) :
    ∀ (normalized : Item), (itemGet normalized k).isSome = true →
      itemGet (Normalizer.addExtras normalized rest) k = itemGet normalized k := by
  induction rest with
  | nil => intro normalized h; rfl
  | cons p r ih =>
    intro normalized h
    obtain ⟨k', v⟩ := p
    show itemGet (Normalizer.addExtras normalized ((k', v) :: r)) k = _
    rw [Normalizer.addExtras]
    by_cases hp : (itemGet normalized k').isSome = true
    · rw [if_pos hp]; exact ih normalized h
    · rw [if_neg hp]
      have h' : (itemGet (normalized ++ [(k', v)]) k).isSome = true := by
        rw [itemGet_append_left _ h]; exact h
      rw [ih _ h', itemGet_append_left _ h]

/-- The five canonical fields of a normalized item, exactly as the source
computes them. -/
lemma normalize_fields (parse : String → Option String) (item : Item) :
    itemGet (Normalizer.normalize parse item) "title"
        = some ((itemGet item "title").getD "Untitled") ∧
    itemGet (Normalizer.normalize parse item) "content"
        = some ((Normalizer.firstTruthy item ["content", "summary", "description"]).getD "") ∧
    itemGet (Normalizer.normalize parse item) "url"
        = some ((Normalizer.firstTruthy item ["url", "link"]).getD "") ∧
    itemGet (Normalizer.normalize parse item) "published_date"
        = some (Normalizer.normalize_date parse
            (Normalizer.firstTruthy item ["published_date", "published", "pubDate"])) ∧
    itemGet (Normalizer.normalize parse item) "source"
        = some ((itemGet item "source").getD "Unknown") := by
  unfold Normalizer.normalize Normalizer.normalize_item
  refine ⟨?_, ?_, ?_, ?_, ?_⟩ <;>
    · rw [addExtras_get _ _ (by rfl)]; rfl

lemma firstTruthy_ne_empty {item : Item} {s : String} :
    ∀ {ks : List String}, Normalizer.firstTruthy item ks = some s → s ≠ "" := by
  intro ks
  induction ks with
  | nil => intro h; exact absurd h (by simp [Normalizer.firstTruthy])
  | cons k t ih =>
    intro h
    cases hg : itemGet item k with
    | none =>
      simp only [Normalizer.firstTruthy, hg] at h
      exact ih h
    | some v =>
      simp only [Normalizer.firstTruthy, hg] at h
      by_cases hv : v = ""
      · rw [if_pos hv] at h; exact ih h
      · rw [if_neg hv] at h
        cases h; exact hv

/-- Claim C1: for every raw item (including the empty dict), `normalize`
returns an item in which all five required fields — title, content, url,
published_date, source — are present (and, by the typing of the model,
string-valued). -/
theorem C1_normalization_totality (parse : String → Option String) (item : Item) :
    (itemGet (Normalizer.normalize parse item) "title").isSome = true ∧
    (itemGet (Normalizer.normalize parse item) "content").isSome = true ∧
    (itemGet (Normalizer.normalize parse item) "url").isSome = true ∧
    (itemGet (Normalizer.normalize parse item) "published_date").isSome = true ∧
    (itemGet (Normalizer.normalize parse item) "source").isSome = true := by
  obtain ⟨h1, h2, h3, h4, h5⟩ := normalize_fields parse item
  rw [h1, h2, h3, h4, h5]
  exact ⟨rfl, rfl, rfl, rfl, rfl⟩

/-- Claim C2, counterexample: an item whose title is present but empty keeps
the empty title; it does not get the documented default "Untitled", because
the code uses `item.get('title', 'Untitled')`, which only falls back when
the key is absent. -/
theorem C2_counterexample_empty_title :
    itemGet (Normalizer.normalize (fun _ => none) [("title", "")]) "title" = some ""
      ∧ ("" : String) ≠ "Untitled" := by
  exact ⟨rfl, by decide⟩

lemma firstTruthy_falsy_step {item : Item} {k : String} {ks : List String}
    (h : itemGet item k = none ∨ itemGet item k = some "") :
    Normalizer.firstTruthy item (k :: ks) = Normalizer.firstTruthy item ks := by
  rcases h with h | h
  · simp only [Normalizer.firstTruthy, h]
  · simp [Normalizer.firstTruthy, h]

lemma firstTruthy_truthy_step {item : Item} {k s : String} {ks : List String}
    (h : itemGet item k = some s) (hne : s ≠ "") :
    Normalizer.firstTruthy item (k :: ks) = some s := by
  simp only [Normalizer.firstTruthy, h, if_neg hne]

/-- Claim C2 (amended): `content` and `url` select the first non-empty
candidate among their aliases and default to the empty string; the
published date selects the first non-empty alias and maps absence or a
parse failure to the sentinel "No date available"; but `title` (and
`source`) are taken verbatim from their own key whenever it is present —
even when its value is empty — and fall back to "Untitled" ("Unknown")
only when the key is absent. -/
theorem C2_field_selection (parse : String → Option String) (item : Item) :
    (itemGet item "title" = none →
      itemGet (Normalizer.normalize parse item) "title" = some "Untitled") ∧
    (∀ t, itemGet item "title" = some t →
      itemGet (Normalizer.normalize parse item) "title" = some t) ∧
    (∀ c, itemGet item "content" = some c → c ≠ "" →
      itemGet (Normalizer.normalize parse item) "content" = some c) ∧
    (∀ s, (itemGet item "content" = none ∨ itemGet item "content" = some "") →
      itemGet item "summary" = some s → s ≠ "" →
      itemGet (Normalizer.normalize parse item) "content" = some s) ∧
    (∀ s, (itemGet item "content" = none ∨ itemGet item "content" = some "") →
      (itemGet item "summary" = none ∨ itemGet item "summary" = some "") →
      itemGet item "description" = some s → s ≠ "" →
      itemGet (Normalizer.normalize parse item) "content" = some s) ∧
    (Normalizer.firstTruthy item ["content", "summary", "description"] = none →
      itemGet (Normalizer.normalize parse item) "content" = some "") ∧
    (∀ u, Normalizer.firstTruthy item ["url", "link"] = some u →
      itemGet (Normalizer.normalize parse item) "url" = some u) ∧
    (Normalizer.firstTruthy item ["url", "link"] = none →
      itemGet (Normalizer.normalize parse item) "url" = some "") ∧
    (Normalizer.firstTruthy item ["published_date", "published", "pubDate"] = none →
      itemGet (Normalizer.normalize parse item) "published_date"
        = some "No date available") ∧
    (∀ s, Normalizer.firstTruthy item ["published_date", "published", "pubDate"] = some s →
      parse s = none →
      itemGet (Normalizer.normalize parse item) "published_date"
        = some "No date available") ∧
    (∀ s d, Normalizer.firstTruthy item ["published_date", "published", "pubDate"] = some s →
      parse s = some d →
      itemGet (Normalizer.normalize parse item) "published_date" = some d) ∧
    (itemGet item "source" = none →
      itemGet (Normalizer.normalize parse item) "source" = some "Unknown") ∧
    (∀ t, itemGet item "source" = some t →
      itemGet (Normalizer.normalize parse item) "source" = some t) := by
  obtain ⟨h1, h2, h3, h4, h5⟩ := normalize_fields parse item
  refine ⟨?_, ?_, ?_, ?_, ?_, ?_, ?_, ?_, ?_, ?_, ?_, ?_, ?_⟩
  · intro h; rw [h1, h]; rfl
  · intro t h; rw [h1, h]; rfl
  · intro c hc hne
    rw [h2]
    have hsel : Normalizer.firstTruthy item ["content", "summary", "description"] = some c := by
      simp only [Normalizer.firstTruthy, hc, if_neg hne]
    rw [hsel]
    rfl
  · intro s hc hs hsne
    rw [h2, firstTruthy_falsy_step hc, firstTruthy_truthy_step hs hsne]
    rfl
  · intro s hc hsum hd hdne
    rw [h2, firstTruthy_falsy_step hc, firstTruthy_falsy_step hsum,
      firstTruthy_truthy_step hd hdne]
    rfl
  · intro h; rw [h2, h]; rfl
  · intro u h; rw [h3, h]; rfl
  · intro h; rw [h3, h]; rfl
  · intro h; rw [h4, h]; rfl
  · intro s h hp
    rw [h4, h, Normalizer.normalize_date]
    rw [if_neg (firstTruthy_ne_empty h), hp]
  · intro s d h hp
    rw [h4, h, Normalizer.normalize_date]
    rw [if_neg (firstTruthy_ne_empty h), hp]
  · intro h; rw [h5, h]; rfl
  · intro t h; rw [h5, h]; rfl

/-- Witness for `C2_field_selection` at a concrete raw item: title absent,
content via the summary alias (the content key itself being absent), url
via the link alias, date parsed. -/
theorem C2_field_selection_witness :
    itemGet (Normalizer.normalize
        (fun s => if s = "2024-01-02" then some "2024-01-02T00:00:00" else none)
        [("summary", "body"), ("link", "http"), ("published", "2024-01-02")]) "title"
      = some "Untitled" ∧
    itemGet (Normalizer.normalize
        (fun s => if s = "2024-01-02" then some "2024-01-02T00:00:00" else none)
        [("summary", "body"), ("link", "http"), ("published", "2024-01-02")]) "content"
      = some "body" ∧
    itemGet (Normalizer.normalize
        (fun s => if s = "2024-01-02" then some "2024-01-02T00:00:00" else none)
        [("summary", "body"), ("link", "http"), ("published", "2024-01-02")]) "published_date"
      = some "2024-01-02T00:00:00" := by
  obtain ⟨t1, -, -, s4, -, -, -, -, -, -, d11, -, -⟩ := C2_field_selection
    (fun s => if s = "2024-01-02" then some "2024-01-02T00:00:00" else none)
    [("summary", "body"), ("link", "http"), ("published", "2024-01-02")]
  exact ⟨t1 rfl, s4 "body" (Or.inl rfl) rfl (by decide),
    d11 "2024-01-02" "2024-01-02T00:00:00" rfl (by simp)⟩

/-- Ascending indices (starting at `i`) at which character `c` occurs. -/
def positionsOf (c : Char) : List Char → Nat → List Nat
  | [], _ => []
  | d :: t, i => if d == c then i :: positionsOf c t (i + 1) else positionsOf c t (i + 1)

namespace SeqMatcher

/-- `SequenceMatcher.__chain_b` with `junk=None`: the index list of `c`
in `b`, emptied when the autojunk heuristic (length ≥ 200 and more than
`len(b)//100 + 1` occurrences) marks `c` popular. -/
def b2j (b : List Char) (c : Char) : List Nat :=
  let idxs := positionsOf c b 0
  if 200 ≤ b.length ∧ b.length / 100 + 1 < idxs.length then [] else idxs

/-- `a[i] == b[j]`, false out of range (the algorithm only compares in
range). -/
def charEq (a b : List Char) (i j : Nat) : Bool :=
  match a.get? i, b.get? j with
  | some x, some y => x == y
  | _, _ => false

/-- One `j` step of the `find_longest_match` inner loop: extend the
diagonal run ending at `(i, j)` and keep the best on strict improvement. -/
def rowStep (j2len : List (Nat × Nat)) (i : Nat)
    (st : List (Nat × Nat) × Nat × Nat × Nat) (j : Nat) :
    List (Nat × Nat) × Nat × Nat × Nat :=
  let k := (if j = 0 then 0 else (List.lookup (j - 1) j2len).getD 0) + 1
  if st.2.2.2 < k then ((j, k) :: st.1, i + 1 - k, j + 1 - k, k)
  else ((j, k) :: st.1, st.2)

/-- The `for i in range(alo, ahi)` loop of `find_longest_match`. -/
def flmRows (a b : List Char) (blo bhi : Nat) :
    List Nat → List (Nat × Nat) → Nat × Nat × Nat → Nat × Nat × Nat
  | [], _, best => best
  | i :: rest, j2len, best =>
    let js := (b2j b (a.getD i (Char.ofNat 0))).filter (fun j => blo ≤ j && j < bhi)
    let st := js.foldl (rowStep j2len i) ([], best)
    flmRows a b blo bhi rest st.1 st.2

/-- Leftward extension of the best block (`junk=None`, so the junk test
in the loop condition is vacuous). -/
def extendLeft (a b : List Char) (alo blo : Nat) :
    Nat → Nat × Nat × Nat → Nat × Nat × Nat
  | 0, st => st
  | fuel + 1, (besti, bestj, bestsize) =>
    if alo < besti && blo < bestj && charEq a b (besti - 1) (bestj - 1) then
      extendLeft a b alo blo fuel (besti - 1, bestj - 1, bestsize + 1)
    else (besti, bestj, bestsize)

/-- Rightward extension of the best block. -/
def extendRight (a b : List Char) (ahi bhi : Nat) :
    Nat → Nat × Nat × Nat → Nat × Nat × Nat
  | 0, st => st
  | fuel + 1, (besti, bestj, bestsize) =>
    if besti + bestsize < ahi && bestj + bestsize < bhi
        && charEq a b (besti + bestsize) (bestj + bestsize) then
      extendRight a b ahi bhi fuel (besti, bestj, bestsize + 1)
    else (besti, bestj, bestsize)

/-- `SequenceMatcher.find_longest_match` on `a[alo:ahi]` vs `b[blo:bhi]`. -/
def find_longest_match (a b : List Char) (alo ahi blo bhi : Nat) : Nat × Nat × Nat :=
  let best := flmRows a b blo bhi (List.range' alo (ahi - alo)) [] (alo, blo, 0)
  let best := extendLeft a b alo blo best.1 best
  extendRight a b ahi bhi (ahi + bhi) best

/-- Total size of all matching blocks (`get_matching_blocks`, which
recursively splits around each longest match).  The fuel argument only
bounds the recursion depth; `ratio` passes enough for any input. -/
def matchSum (a b : List Char) : Nat → Nat → Nat → Nat → Nat → Nat
  | 0, _, _, _, _ => 0
  | fuel + 1, alo, ahi, blo, bhi =>
    let m := find_longest_match a b alo ahi blo bhi
    if m.2.2 = 0 then 0
    else
      m.2.2 + (if alo < m.1 && blo < m.2.1 then matchSum a b fuel alo m.1 blo m.2.1 else 0)
        + (if m.1 + m.2.2 < ahi && m.2.1 + m.2.2 < bhi then
            matchSum a b fuel (m.1 + m.2.2) ahi (m.2.1 + m.2.2) bhi else 0)

/-- `SequenceMatcher.ratio()`: `2 * M / T` (and 1.0 when both inputs are
empty, per `_calculate_ratio`). -/
def ratio (a b : List Char) : ℚ :=
  let total := a.length + b.length
  if total = 0 then 1
  else 2 * (matchSum a b (a.length + 1) 0 a.length 0 b.length : ℚ) / (total : ℚ)

end SeqMatcher

namespace Deduplicator

/-- `Deduplicator.calculate_similarity`. -/
def calculate_similarity (text1 text2 : String) : ℚ :=
  if text1 = "" ∨ text2 = "" then 0
  else SeqMatcher.ratio (pyLower text1).toList (pyLower text2).toList

/-- `Deduplicator.are_duplicates` (threshold = `self.similarity_threshold`). -/
def are_duplicates (threshold : ℚ) (item1 item2 : Item) : Bool :=
  let title1 := pyStrip (itemGetD item1 "title" "")
  let title2 := pyStrip (itemGetD item2 "title" "")
  if title1 ≠ "" ∧ title2 ≠ "" ∧ pyLower title1 = pyLower title2 then true
  else
    let content1 := itemGetD item1 "content" ""
    let content2 := itemGetD item2 "content" ""
    if content1 ≠ "" ∧ content2 ≠ "" ∧ 50 ≤ content1.length ∧ 50 ≤ content2.length then
      decide (threshold ≤ calculate_similarity content1 content2)
    else false

/-- The result dict of `Deduplicator.deduplicate`. -/
structure DedupResult where
  unique_count : Nat
  unique_items : List Item
  duplicate_groups : List (List Item)
deriving Repr, DecidableEq

/-- The greedy scan of `Deduplicator.deduplicate`: the head of the list is
the next unclaimed item, it claims every later unclaimed item that matches
it, and the scan continues on what is left. -/
def dedup_core (thr : ℚ) : List Item → List Item × List (List Item)
  | [] => ([], [])
  | x :: xs =>
    let dups := xs.filter (fun y => are_duplicates thr x y)
    let rest := xs.filter (fun y => !(are_duplicates thr x y))
    let r := dedup_core thr rest
    (x :: r.1, if dups.isEmpty then r.2 else (x :: dups) :: r.2)
termination_by l => l.length
decreasing_by
  simp only [List.length_cons]
  exact Nat.lt_succ_of_le (List.length_filter_le _ _)

/-- `Deduplicator.deduplicate`. -/
def deduplicate (thr : ℚ) (items : List Item) : DedupResult :=
  let r := dedup_core thr items
  ⟨r.1.length, r.1, r.2⟩

end Deduplicator

set_option maxRecDepth 10000

/-- The duplicate criterion exactly as the specification words it (titles
compared verbatim, without the code's `strip()`), for comparison with
`Deduplicator.are_duplicates`. -/
def spec_are_duplicates (threshold : ℚ) (item1 item2 : Item) : Bool :=
  decide ((itemGetD item1 "title" "" ≠ "" ∧ itemGetD item2 "title" "" ≠ "" ∧
      pyLower (itemGetD item1 "title" "") = pyLower (itemGetD item2 "title" "")) ∨
    (50 ≤ (itemGetD item1 "content" "").length ∧ 50 ≤ (itemGetD item2 "content" "").length ∧
      threshold ≤ Deduplicator.calculate_similarity
        (itemGetD item1 "content" "") (itemGetD item2 "content" "")))

lemma length_ge_ne_empty {s : String} (h : 50 ≤ s.length) : s ≠ "" := by
  intro he
  rw [he] at h
  exact absurd h (by decide)

lemma are_duplicates_no_title {thr : ℚ} {i1 i2 : Item}
    (h1 : pyStrip (itemGetD i1 "title" "") = "") :
    Deduplicator.are_duplicates thr i1 i2 =
      (if (itemGetD i1 "content" "") ≠ "" ∧ (itemGetD i2 "content" "") ≠ "" ∧
          50 ≤ (itemGetD i1 "content" "").length ∧ 50 ≤ (itemGetD i2 "content" "").length then
        decide (thr ≤ Deduplicator.calculate_similarity
          (itemGetD i1 "content" "") (itemGetD i2 "content" ""))
      else false) := by
  simp only [Deduplicator.are_duplicates]
  rw [if_neg (fun hc => hc.1 h1)]

/-- First item of the spec's dedup scenario. -/
def bnA : Item := [("title", "Breaking News"), ("content", "X"), ("url", "a")]

/-- Second item of the spec's dedup scenario. -/
def bnB : Item := [("title", "Breaking News"), ("content", "X"), ("url", "b")]

lemma dedup_bn_dup : Deduplicator.are_duplicates (4/5) bnA bnB = true := rfl

lemma dedup_core_nil (thr : ℚ) : Deduplicator.dedup_core thr [] = ([], []) := by
  rw [Deduplicator.dedup_core]

lemma dedup_core_cons (thr : ℚ) (x : Item) (xs : List Item) :
    Deduplicator.dedup_core thr (x :: xs) =
      ((x :: (Deduplicator.dedup_core thr
          (xs.filter (fun y => !(Deduplicator.are_duplicates thr x y)))).1),
        (if (xs.filter (fun y => Deduplicator.are_duplicates thr x y)).isEmpty then
          (Deduplicator.dedup_core thr
            (xs.filter (fun y => !(Deduplicator.are_duplicates thr x y)))).2
         else (x :: xs.filter (fun y => Deduplicator.are_duplicates thr x y)) ::
          (Deduplicator.dedup_core thr
            (xs.filter (fun y => !(Deduplicator.are_duplicates thr x y)))).2)) := by
  rw [Deduplicator.dedup_core]

lemma dedup_breaking_news :
    Deduplicator.deduplicate (4/5) [bnA, bnB] = ⟨1, [bnA], [[bnA, bnB]]⟩ := by
  rw [Deduplicator.deduplicate, dedup_core_cons]
  simp only [List.filter_cons, List.filter_nil, dedup_bn_dup, Bool.not_true, if_true, if_false,
    cond_true, cond_false]
  norm_num [dedup_core_nil]

/-- Claim C3, counterexample: the code strips titles before comparing, so
two items whose raw titles are "x " and "x" are detected as duplicates even
though the claim's criterion (titles case-insensitively identical, or long
similar contents) does not hold for them. -/
theorem C3_counterexample_whitespace_title :
    Deduplicator.are_duplicates (4/5) [("title", "x ")] [("title", "x")] = true ∧
    spec_are_duplicates (4/5) [("title", "x ")] [("title", "x")] = false := by
  exact ⟨rfl, rfl⟩

/-- Claim C3 (amended): `are_duplicates` holds iff either both titles are
non-empty after stripping surrounding whitespace and are case-insensitively
identical after stripping, or both contents have length ≥ 50 and their
case-folded similarity ratio reaches the threshold; consequently the two
"Breaking News" items collapse to one unique item with one duplicate group
of size 2. -/
theorem C3_duplicate_criterion (thr : ℚ) (item1 item2 : Item) :
    (Deduplicator.are_duplicates thr item1 item2 = true ↔
      ((pyStrip (itemGetD item1 "title" "") ≠ "" ∧ pyStrip (itemGetD item2 "title" "") ≠ "" ∧
         pyLower (pyStrip (itemGetD item1 "title" ""))
           = pyLower (pyStrip (itemGetD item2 "title" ""))) ∨
       (50 ≤ (itemGetD item1 "content" "").length ∧
         50 ≤ (itemGetD item2 "content" "").length ∧
         thr ≤ Deduplicator.calculate_similarity (itemGetD item1 "content" "")
           (itemGetD item2 "content" "")))) ∧
    Deduplicator.deduplicate (4/5) [bnA, bnB] = ⟨1, [bnA], [[bnA, bnB]]⟩ := by
  refine ⟨?_, dedup_breaking_news⟩
  simp only [Deduplicator.are_duplicates]
  by_cases hT : pyStrip (itemGetD item1 "title" "") ≠ "" ∧
      pyStrip (itemGetD item2 "title" "") ≠ "" ∧
      pyLower (pyStrip (itemGetD item1 "title" ""))
        = pyLower (pyStrip (itemGetD item2 "title" ""))
  · rw [if_pos hT]
    exact ⟨fun _ => Or.inl hT, fun _ => rfl⟩
  · rw [if_neg hT]
    by_cases hC : itemGetD item1 "content" "" ≠ "" ∧ itemGetD item2 "content" "" ≠ "" ∧
        50 ≤ (itemGetD item1 "content" "").length ∧ 50 ≤ (itemGetD item2 "content" "").length
    · rw [if_pos hC, decide_eq_true_eq]
      constructor
      · intro h
        exact Or.inr ⟨hC.2.2.1, hC.2.2.2, h⟩
      · rintro (h | ⟨_, _, h⟩)
        · exact absurd h hT
        · exact h
    · rw [if_neg hC]
      refine ⟨fun h => absurd h Bool.false_ne_true, fun h => ?_⟩
      rcases h with h | ⟨l1, l2, _⟩
      · exact absurd h hT
      · exact absurd ⟨length_ge_ne_empty l1, length_ge_ne_empty l2, l1, l2⟩ hC

/-- Left operand of the asymmetric similarity pair: 40 pairwise-distinct
characters, then "brady", then filler unique to this string. -/
def asymA : String := "0123456789cefghijklmnopstuvxz!#$%&*+,-./bradyqqqqqqqq"

/-- Right operand of the asymmetric similarity pair: the same 40 characters,
then "byrd", then filler unique to this string. -/
def asymB : String := "0123456789cefghijklmnopstuvxz!#$%&*+,-./byrdwwwwwwwww"

lemma simA : Deduplicator.calculate_similarity asymA asymB
    = 2 * ((43 : ℕ) : ℚ) / ((106 : ℕ) : ℚ) := by
  have hA : ¬(asymA = "" ∨ asymB = "") := by
    rintro (h | h) <;> exact absurd h (by decide)
  have hM : SeqMatcher.matchSum (pyLower asymA).toList (pyLower asymB).toList
      ((pyLower asymA).toList.length + 1) 0 (pyLower asymA).toList.length
      0 (pyLower asymB).toList.length = 43 := by rfl
  have hT : (pyLower asymA).toList.length + (pyLower asymB).toList.length = 106 := by rfl
  unfold Deduplicator.calculate_similarity SeqMatcher.ratio
  rw [if_neg hA]
  simp only [hM, hT]
  norm_num

lemma simB : Deduplicator.calculate_similarity asymB asymA
    = 2 * ((42 : ℕ) : ℚ) / ((106 : ℕ) : ℚ) := by
  have hA : ¬(asymB = "" ∨ asymA = "") := by
    rintro (h | h) <;> exact absurd h (by decide)
  have hM : SeqMatcher.matchSum (pyLower asymB).toList (pyLower asymA).toList
      ((pyLower asymB).toList.length + 1) 0 (pyLower asymB).toList.length
      0 (pyLower asymA).toList.length = 42 := by rfl
  have hT : (pyLower asymB).toList.length + (pyLower asymA).toList.length = 106 := by rfl
  unfold Deduplicator.calculate_similarity SeqMatcher.ratio
  rw [if_neg hA]
  simp only [hM, hT]
  norm_num

/-- Claim C4, counterexample: the similarity ratio inherited from
`difflib.SequenceMatcher` is order-dependent (its longest-match tie-break
prefers blocks earliest in the first argument), so with the default
threshold 0.8 these two 53-character contents are duplicates in one order
(ratio 86/106) and not in the other (ratio 84/106). -/
theorem C4_counterexample_order_dependent :
    Deduplicator.are_duplicates (4/5) [("content", asymA)] [("content", asymB)] = true ∧
    Deduplicator.are_duplicates (4/5) [("content", asymB)] [("content", asymA)] = false := by
  constructor
  · rw [are_duplicates_no_title
      (show pyStrip (itemGetD [("content", asymA)] "title" "") = "" from rfl)]
    rw [if_pos ⟨by decide, by decide, by decide, by decide⟩]
    rw [show itemGetD [("content", asymA)] "content" "" = asymA from rfl,
        show itemGetD [("content", asymB)] "content" "" = asymB from rfl]
    rw [simA]
    exact decide_eq_true (by norm_num)
  · rw [are_duplicates_no_title
      (show pyStrip (itemGetD [("content", asymB)] "title" "") = "" from rfl)]
    rw [if_pos ⟨by decide, by decide, by decide, by decide⟩]
    rw [show itemGetD [("content", asymB)] "content" "" = asymB from rfl,
        show itemGetD [("content", asymA)] "content" "" = asymA from rfl]
    rw [simB]
    exact decide_eq_false (by norm_num)

/-- Claim C4 (amended): `are_duplicates` is symmetric in every pair whose
content-similarity computation is order-independent — in particular
whenever the title clause decides, contents are equal, or either content is
short; full symmetry fails because the underlying ratio is order-dependent. -/
theorem C4_symmetry_when_similarity_symmetric (thr : ℚ) (a b : Item)
    (h : Deduplicator.calculate_similarity (itemGetD a "content" "") (itemGetD b "content" "")
       = Deduplicator.calculate_similarity (itemGetD b "content" "") (itemGetD a "content" "")) :
    Deduplicator.are_duplicates thr a b = Deduplicator.are_duplicates thr b a := by
  simp only [Deduplicator.are_duplicates]
  by_cases hT : pyStrip (itemGetD a "title" "") ≠ "" ∧ pyStrip (itemGetD b "title" "") ≠ "" ∧
      pyLower (pyStrip (itemGetD a "title" "")) = pyLower (pyStrip (itemGetD b "title" ""))
  · have hT2 : pyStrip (itemGetD b "title" "") ≠ "" ∧ pyStrip (itemGetD a "title" "") ≠ "" ∧
        pyLower (pyStrip (itemGetD b "title" "")) = pyLower (pyStrip (itemGetD a "title" "")) :=
      ⟨hT.2.1, hT.1, hT.2.2.symm⟩
    rw [if_pos hT, if_pos hT2]
  · have hT2 : ¬(pyStrip (itemGetD b "title" "") ≠ "" ∧ pyStrip (itemGetD a "title" "") ≠ "" ∧
        pyLower (pyStrip (itemGetD b "title" "")) = pyLower (pyStrip (itemGetD a "title" ""))) :=
      fun hc => hT ⟨hc.2.1, hc.1, hc.2.2.symm⟩
    rw [if_neg hT, if_neg hT2]
    by_cases hC : itemGetD a "content" "" ≠ "" ∧ itemGetD b "content" "" ≠ "" ∧
        50 ≤ (itemGetD a "content" "").length ∧ 50 ≤ (itemGetD b "content" "").length
    · have hC2 : itemGetD b "content" "" ≠ "" ∧ itemGetD a "content" "" ≠ "" ∧
          50 ≤ (itemGetD b "content" "").length ∧ 50 ≤ (itemGetD a "content" "").length :=
        ⟨hC.2.1, hC.1, hC.2.2.2, hC.2.2.1⟩
      rw [if_pos hC, if_pos hC2, h]
    · have hC2 : ¬(itemGetD b "content" "" ≠ "" ∧ itemGetD a "content" "" ≠ "" ∧
          50 ≤ (itemGetD b "content" "").length ∧ 50 ≤ (itemGetD a "content" "").length) :=
        fun hc => hC ⟨hc.2.1, hc.1, hc.2.2.2, hc.2.2.1⟩
      rw [if_neg hC, if_neg hC2]

/-- Witness for `C4_symmetry_when_similarity_symmetric`: two title-only
items (their contents are both empty, so similarity is trivially
order-independent). -/
theorem C4_symmetry_witness :
    Deduplicator.are_duplicates (4/5) [("title", "abc")] [("title", "ABC")]
      = Deduplicator.are_duplicates (4/5) [("title", "ABC")] [("title", "abc")] :=
  C4_symmetry_when_similarity_symmetric (4/5) [("title", "abc")] [("title", "ABC")] rfl

lemma dedup_core_unique_sublist (thr : ℚ) :
    ∀ (n : ℕ) (l : List Item), l.length ≤ n →
      ((Deduplicator.dedup_core thr l).1).Sublist l := by
  intro n
  induction n with
  | zero =>
    intro l hl
    rw [List.length_eq_zero.mp (Nat.le_zero.mp hl), dedup_core_nil]
  | succ n ih =>
    intro l hl
    cases l with
    | nil => rw [dedup_core_nil]
    | cons x xs =>
      rw [dedup_core_cons]
      have hr : (xs.filter (fun y => !(Deduplicator.are_duplicates thr x y))).length ≤ n :=
        le_trans (List.length_filter_le _ _)
          (Nat.succ_le_succ_iff.mp (by simpa using hl))
      exact List.Sublist.cons₂ x ((ih _ hr).trans (List.filter_sublist _))

lemma dedup_core_unique_pairwise (thr : ℚ) :
    ∀ (n : ℕ) (l : List Item), l.length ≤ n →
      ((Deduplicator.dedup_core thr l).1).Pairwise
        (fun a b => Deduplicator.are_duplicates thr a b = false) := by
  intro n
  induction n with
  | zero =>
    intro l hl
    rw [List.length_eq_zero.mp (Nat.le_zero.mp hl), dedup_core_nil]
    exact List.Pairwise.nil
  | succ n ih =>
    intro l hl
    cases l with
    | nil => rw [dedup_core_nil]; exact List.Pairwise.nil
    | cons x xs =>
      rw [dedup_core_cons]
      have hr : (xs.filter (fun y => !(Deduplicator.are_duplicates thr x y))).length ≤ n :=
        le_trans (List.length_filter_le _ _)
          (Nat.succ_le_succ_iff.mp (by simpa using hl))
      refine List.Pairwise.cons ?_ (ih _ hr)
      intro y hy
      have hmem : y ∈ xs.filter (fun y => !(Deduplicator.are_duplicates thr x y)) :=
        (dedup_core_unique_sublist thr n _ hr).subset hy
      simpa using List.of_mem_filter hmem

lemma dedup_core_of_pairwise (thr : ℚ) :
    ∀ (l : List Item),
      l.Pairwise (fun a b => Deduplicator.are_duplicates thr a b = false) →
      Deduplicator.dedup_core thr l = (l, []) := by
  intro l
  induction l with
  | nil => intro _; rw [dedup_core_nil]
  | cons x xs ih =>
    intro h
    rw [List.pairwise_cons] at h
    have hrest : xs.filter (fun y => !(Deduplicator.are_duplicates thr x y)) = xs :=
      List.filter_eq_self.mpr (fun y hy => by simp [h.1 y hy])
    have hdups : xs.filter (fun y => Deduplicator.are_duplicates thr x y) = [] :=
      List.filter_eq_nil_iff.mpr (fun y hy => by simp [h.1 y hy])
    rw [dedup_core_cons, hrest, hdups, ih h.2]
    simp

/-- Claim C5: deduplication is idempotent — running `deduplicate` again on
the `unique_items` of a first run returns the same unique items, the same
unique count, and no duplicate groups.  (Any two surviving items were
compared, in this orientation, during the first run and found not to be
duplicates.) -/
theorem C5_dedup_idempotent (thr : ℚ) (items : List Item) :
    Deduplicator.deduplicate thr (Deduplicator.deduplicate thr items).unique_items =
      ⟨(Deduplicator.deduplicate thr items).unique_count,
        (Deduplicator.deduplicate thr items).unique_items, []⟩ := by
  show Deduplicator.deduplicate thr (Deduplicator.dedup_core thr items).1 = _
  rw [Deduplicator.deduplicate,
    dedup_core_of_pairwise thr _ (dedup_core_unique_pairwise thr items.length items le_rfl)]
  rfl

lemma dedup_core_perm (thr : ℚ) :
    ∀ (n : ℕ) (l : List Item), l.length ≤ n →
      (((Deduplicator.dedup_core thr l).1) ++
        (((Deduplicator.dedup_core thr l).2).map List.tail).flatten).Perm l := by
  intro n
  induction n with
  | zero =>
    intro l hl
    rw [List.length_eq_zero.mp (Nat.le_zero.mp hl), dedup_core_nil]
    exact List.Perm.refl _
  | succ n ih =>
    intro l hl
    cases l with
    | nil => rw [dedup_core_nil]; exact List.Perm.refl _
    | cons x xs =>
      rw [dedup_core_cons]
      have hr : (xs.filter (fun y => !(Deduplicator.are_duplicates thr x y))).length ≤ n :=
        le_trans (List.length_filter_le _ _)
          (Nat.succ_le_succ_iff.mp (by simpa using hl))
      have hperm := ih _ hr
      have hsplit : ((xs.filter (fun y => Deduplicator.are_duplicates thr x y)) ++
          (xs.filter (fun y => !(Deduplicator.are_duplicates thr x y)))).Perm xs :=
        List.filter_append_perm _ xs
      by_cases hE : (xs.filter (fun y => Deduplicator.are_duplicates thr x y)).isEmpty = true
      · have hd : xs.filter (fun y => Deduplicator.are_duplicates thr x y) = [] :=
          List.isEmpty_iff.mp hE
        rw [if_pos hE]
        simp only [List.cons_append]
        refine List.Perm.cons x (hperm.trans ?_)
        rw [hd] at hsplit
        simpa using hsplit
      · rw [if_neg hE]
        simp only [List.map_cons, List.tail_cons, List.flatten_cons, List.cons_append]
        refine List.Perm.cons x ?_
        have h1 : ((Deduplicator.dedup_core thr
              (xs.filter (fun y => !(Deduplicator.are_duplicates thr x y)))).1 ++
            ((xs.filter (fun y => Deduplicator.are_duplicates thr x y)) ++
              (((Deduplicator.dedup_core thr
                (xs.filter (fun y => !(Deduplicator.are_duplicates thr x y)))).2).map
                  List.tail).flatten)).Perm
            ((xs.filter (fun y => Deduplicator.are_duplicates thr x y)) ++
              ((Deduplicator.dedup_core thr
                  (xs.filter (fun y => !(Deduplicator.are_duplicates thr x y)))).1 ++
                (((Deduplicator.dedup_core thr
                  (xs.filter (fun y => !(Deduplicator.are_duplicates thr x y)))).2).map
                    List.tail).flatten)) := by
          rw [← List.append_assoc]
          exact (List.perm_append_comm.append_right _).trans (by rw [List.append_assoc])
        refine h1.trans ?_
        exact (hperm.append_left _).trans hsplit

lemma dedup_core_groups (thr : ℚ) :
    ∀ (n : ℕ) (l : List Item), l.length ≤ n →
      ∀ g ∈ (Deduplicator.dedup_core thr l).2,
        2 ≤ g.length ∧ ∃ a t, g = a :: t ∧ t ≠ [] ∧ a ∈ (Deduplicator.dedup_core thr l).1 := by
  intro n
  induction n with
  | zero =>
    intro l hl
    rw [List.length_eq_zero.mp (Nat.le_zero.mp hl), dedup_core_nil]
    intro g hg
    exact absurd hg (List.not_mem_nil g)
  | succ n ih =>
    intro l hl
    cases l with
    | nil =>
      rw [dedup_core_nil]
      intro g hg
      exact absurd hg (List.not_mem_nil g)
    | cons x xs =>
      rw [dedup_core_cons]
      have hr : (xs.filter (fun y => !(Deduplicator.are_duplicates thr x y))).length ≤ n :=
        le_trans (List.length_filter_le _ _)
          (Nat.succ_le_succ_iff.mp (by simpa using hl))
      intro g hg
      by_cases hE : (xs.filter (fun y => Deduplicator.are_duplicates thr x y)).isEmpty = true
      · rw [if_pos hE] at hg
        obtain ⟨hlen, a, t, hgat, ht, ha⟩ := ih _ hr g hg
        exact ⟨hlen, a, t, hgat, ht, List.mem_cons_of_mem x ha⟩
      · rw [if_neg hE] at hg
        rcases List.mem_cons.mp hg with hg | hg
        · have hne : xs.filter (fun y => Deduplicator.are_duplicates thr x y) ≠ [] :=
            fun h0 => hE (by simp [h0])
          refine ⟨?_, x, xs.filter (fun y => Deduplicator.are_duplicates thr x y),
            hg, hne, List.mem_cons_self _ _⟩
          rw [hg]
          simpa [Nat.succ_le_succ_iff] using List.length_pos.mpr hne
        · obtain ⟨hlen, a, t, hgat, ht, ha⟩ := ih _ hr g hg
          exact ⟨hlen, a, t, hgat, ht, List.mem_cons_of_mem x ha⟩

/-- Claim C10: deduplication conserves and orders the input — the unique
items are a subsequence of the input, every recorded group has at least
two members and starts with its surviving representative (which is also a
unique item), the unique items together with the non-representative group
members are a permutation of the input (each input position accounted for
exactly once), and the unique count plus the number of non-representative
members equals the input length. -/
theorem C10_dedup_conservation (thr : ℚ) (items : List Item) :
    (Deduplicator.deduplicate thr items).unique_count
        = (Deduplicator.deduplicate thr items).unique_items.length ∧
    ((Deduplicator.deduplicate thr items).unique_items).Sublist items ∧
    (∀ g ∈ (Deduplicator.deduplicate thr items).duplicate_groups,
      2 ≤ g.length ∧ ∃ a t, g = a :: t ∧ t ≠ [] ∧
        a ∈ (Deduplicator.deduplicate thr items).unique_items) ∧
    ((Deduplicator.deduplicate thr items).unique_items ++
      (((Deduplicator.deduplicate thr items).duplicate_groups).map List.tail).flatten).Perm
        items ∧
    (Deduplicator.deduplicate thr items).unique_count +
      (((Deduplicator.deduplicate thr items).duplicate_groups).map
        (fun g => g.length - 1)).sum = items.length := by
  refine ⟨rfl, dedup_core_unique_sublist thr items.length items le_rfl,
    dedup_core_groups thr items.length items le_rfl,
    dedup_core_perm thr items.length items le_rfl, ?_⟩
  have hp := (dedup_core_perm thr items.length items le_rfl).length_eq
  rw [List.length_append, List.length_flatten, List.map_map] at hp
  show (Deduplicator.dedup_core thr items).1.length +
    (((Deduplicator.dedup_core thr items).2).map (fun g => g.length - 1)).sum = items.length
  have hfun : (List.length ∘ List.tail : List Item → ℕ) = fun g => g.length - 1 :=
    funext (fun g => List.length_tail g)
  rw [← hp, hfun]

/-- Witness for `C10_dedup_conservation` at the "Breaking News" pair: the
single duplicate group has two members and the unique list is the
one-element subsequence. -/
theorem C10_conservation_witness :
    2 ≤ ([bnA, bnB] : List Item).length ∧ ([bnA] : List Item).Sublist [bnA, bnB] := by
  obtain ⟨-, hsub, hgr, -, -⟩ := C10_dedup_conservation (4/5) [bnA, bnB]
  have hu : (Deduplicator.deduplicate (4/5) [bnA, bnB]).unique_items = [bnA] := by
    rw [dedup_breaking_news]
  have hgmem : [bnA, bnB] ∈ (Deduplicator.deduplicate (4/5) [bnA, bnB]).duplicate_groups := by
    rw [dedup_breaking_news]
    exact List.mem_singleton_self _
  exact ⟨(hgr [bnA, bnB] hgmem).1, hu ▸ hsub⟩

namespace Clustering

/-- The search text of `Clustering.find_cluster`:
`f"{title.lower()} {content.lower()}"`. -/
def search_text (item : Item) : String :=
  pyLower (itemGetD item "title" "") ++ " " ++ pyLower (itemGetD item "content" "")

/-- One cluster's match count: the number of configured keywords (counted
with multiplicity in the configured list, once per keyword regardless of
how often it occurs in the text) whose lower-cased form is a substring of
the search text. -/
def cluster_score (text : String) (kws : List String) : Nat :=
  (kws.filter (fun kw => strContains text (pyLower kw))).length

/-- One step of Python's `max(..., key=...)`: replace the current best
only on a strictly greater score, so the earliest maximum wins. -/
def pick (best p : String × Nat) : String × Nat :=
  if best.2 < p.2 then p else best

/-- `max(cluster_scores, key=cluster_scores.get)` over the insertion-order
association list, or "general" when no cluster scored. -/
def pickMax : List (String × Nat) → String
  | [] => "general"
  | s :: rest => (rest.foldl pick s).1

/-- `Clustering.find_cluster`: score every cluster of the taxonomy (in
declaration order, recording only clusters with at least one match) and
return the first cluster with the maximal score, or "general". -/
def find_cluster (keywords : List (String × List String)) (item : Item) : String :=
  pickMax (keywords.filterMap (fun c =>
    if 0 < cluster_score (search_text item) c.2 then
      some (c.1, cluster_score (search_text item) c.2)
    else none))

end Clustering

lemma foldl_pick_le (rest : List (String × Nat)) :
    ∀ (acc : String × Nat), (∀ p ∈ rest, p.2 ≤ acc.2) →
      rest.foldl Clustering.pick acc = acc := by
  induction rest with
  | nil => intro acc _; rfl
  | cons p t ih =>
    intro acc h
    rw [List.foldl_cons]
    have hp : Clustering.pick acc p = acc := by
      rw [Clustering.pick, if_neg (Nat.not_lt.mpr (h p (List.mem_cons_self _ _)))]
    rw [hp]
    exact ih acc (fun q hq => h q (List.mem_cons_of_mem _ hq))

lemma foldl_pick_firstmax (pre : List (String × Nat)) (c : String × Nat)
    (post : List (String × Nat)) :
    ∀ (acc : String × Nat), acc.2 < c.2 → (∀ p ∈ pre, p.2 < c.2) →
      (∀ p ∈ post, p.2 ≤ c.2) →
      (pre ++ c :: post).foldl Clustering.pick acc = c := by
  induction pre with
  | nil =>
    intro acc hacc _ hpost
    rw [List.nil_append, List.foldl_cons,
      show Clustering.pick acc c = c from by rw [Clustering.pick, if_pos hacc]]
    exact foldl_pick_le post c hpost
  | cons p t ih =>
    intro acc hacc hpre hpost
    rw [List.cons_append, List.foldl_cons]
    have hp : (Clustering.pick acc p).2 < c.2 := by
      rw [Clustering.pick]
      split
      · exact hpre p (List.mem_cons_self _ _)
      · exact hacc
    exact ih _ hp (fun q hq => hpre q (List.mem_cons_of_mem _ hq)) hpost

lemma foldl_pick_mem (rest : List (String × Nat)) :
    ∀ (acc : String × Nat), rest.foldl Clustering.pick acc ∈ acc :: rest := by
  induction rest with
  | nil => intro acc; exact List.mem_singleton_self _
  | cons p t ih =>
    intro acc
    rw [List.foldl_cons]
    have := ih (Clustering.pick acc p)
    rcases List.mem_cons.mp this with h | h
    · rw [h, Clustering.pick]
      split
      · exact List.mem_cons_of_mem _ (List.mem_cons_self _ _)
      · exact List.mem_cons_self _ _
    · exact List.mem_cons_of_mem _ (List.mem_cons_of_mem _ h)

/-- Claim C6: cluster assignment is total and deterministic — the result is
"general" exactly when no cluster of the (dict-like, duplicate-free)
taxonomy has a matching keyword; otherwise the cluster with the strictly
highest match count wins, ties being resolved in favour of the cluster
declared earliest; each configured keyword counts at most once however
often it occurs in the case-folded title-plus-content text. -/
theorem C6_cluster_assignment (keywords : List (String × List String)) (item : Item)
    (_hnd : (keywords.map Prod.fst).Nodup) :
    (Clustering.find_cluster keywords item = "general" ∨
      Clustering.find_cluster keywords item ∈ keywords.map Prod.fst) ∧
    ((∀ c ∈ keywords, Clustering.cluster_score (Clustering.search_text item) c.2 = 0) →
      Clustering.find_cluster keywords item = "general") ∧
    (∀ pre c post, keywords = pre ++ c :: post →
      0 < Clustering.cluster_score (Clustering.search_text item) c.2 →
      (∀ c' ∈ pre, Clustering.cluster_score (Clustering.search_text item) c'.2
          < Clustering.cluster_score (Clustering.search_text item) c.2) →
      (∀ c' ∈ post, Clustering.cluster_score (Clustering.search_text item) c'.2
          ≤ Clustering.cluster_score (Clustering.search_text item) c.2) →
      Clustering.find_cluster keywords item = c.1) := by
  refine ⟨?_, ?_, ?_⟩
  · rw [Clustering.find_cluster]
    cases hs : keywords.filterMap (fun c =>
        if 0 < Clustering.cluster_score (Clustering.search_text item) c.2 then
          some (c.1, Clustering.cluster_score (Clustering.search_text item) c.2)
        else none) with
    | nil => exact Or.inl rfl
    | cons s rest =>
      refine Or.inr ?_
      have hmem : rest.foldl Clustering.pick s ∈ s :: rest := foldl_pick_mem rest s
      rw [← hs] at hmem
      obtain ⟨a, ha, hfa⟩ := List.mem_filterMap.mp hmem
      have : (rest.foldl Clustering.pick s).1 = a.1 := by
        by_cases h0 : 0 < Clustering.cluster_score (Clustering.search_text item) a.2
        · rw [if_pos h0] at hfa
          exact congrArg Prod.fst (Option.some.inj hfa).symm
        · rw [if_neg h0] at hfa
          simp at hfa
      rw [Clustering.pickMax, this]
      exact List.mem_map_of_mem Prod.fst ha
  · intro h
    rw [Clustering.find_cluster,
      List.filterMap_eq_nil_iff.mpr (fun a ha => by rw [if_neg]; rw [h a ha]; exact lt_irrefl 0)]
    rfl
  · intro pre c post hk hc hpre hpost
    rw [Clustering.find_cluster, hk, List.filterMap_append]
    have hcons : List.filterMap (fun c' =>
        if 0 < Clustering.cluster_score (Clustering.search_text item) c'.2 then
          some (c'.1, Clustering.cluster_score (Clustering.search_text item) c'.2)
        else none) (c :: post)
        = (c.1, Clustering.cluster_score (Clustering.search_text item) c.2) ::
          List.filterMap (fun c' =>
            if 0 < Clustering.cluster_score (Clustering.search_text item) c'.2 then
              some (c'.1, Clustering.cluster_score (Clustering.search_text item) c'.2)
            else none) post := by
      rw [List.filterMap_cons, if_pos hc]
    rw [hcons]
    have hpost' : ∀ p ∈ List.filterMap (fun c' =>
        if 0 < Clustering.cluster_score (Clustering.search_text item) c'.2 then
          some (c'.1, Clustering.cluster_score (Clustering.search_text item) c'.2)
        else none) post,
        p.2 ≤ Clustering.cluster_score (Clustering.search_text item) c.2 := by
      intro p hp
      obtain ⟨a, ha, hfa⟩ := List.mem_filterMap.mp hp
      by_cases h0 : 0 < Clustering.cluster_score (Clustering.search_text item) a.2
      · rw [if_pos h0] at hfa
        cases hfa
        exact hpost a ha
      · rw [if_neg h0] at hfa
        cases hfa
    have hpre' : ∀ p ∈ List.filterMap (fun c' =>
        if 0 < Clustering.cluster_score (Clustering.search_text item) c'.2 then
          some (c'.1, Clustering.cluster_score (Clustering.search_text item) c'.2)
        else none) pre,
        p.2 < Clustering.cluster_score (Clustering.search_text item) c.2 := by
      intro p hp
      obtain ⟨a, ha, hfa⟩ := List.mem_filterMap.mp hp
      by_cases h0 : 0 < Clustering.cluster_score (Clustering.search_text item) a.2
      · rw [if_pos h0] at hfa
        cases hfa
        exact hpre a ha
      · rw [if_neg h0] at hfa
        cases hfa
    cases hf : List.filterMap (fun c' =>
        if 0 < Clustering.cluster_score (Clustering.search_text item) c'.2 then
          some (c'.1, Clustering.cluster_score (Clustering.search_text item) c'.2)
        else none) pre with
    | nil =>
      rw [List.nil_append, Clustering.pickMax, foldl_pick_le _ _ hpost']
    | cons s t =>
      rw [hf] at hpre'
      rw [List.cons_append, Clustering.pickMax,
        foldl_pick_firstmax t _ _ s (hpre' s (List.mem_cons_self _ _))
          (fun q hq => hpre' q (List.mem_cons_of_mem _ hq)) hpost']

/-- Witness for `C6_cluster_assignment`: a two-cluster taxonomy where the
second cluster scores 2 and the first scores 1, so the second wins. -/
theorem C6_cluster_assignment_witness :
    Clustering.find_cluster
      [("vuln_exploit", ["vulnerability", "exploit"]), ("observability", ["audit", "logging"])]
      [("title", "audit logging vulnerability")] = "observability" := by
  obtain ⟨-, -, h3⟩ := C6_cluster_assignment
    [("vuln_exploit", ["vulnerability", "exploit"]), ("observability", ["audit", "logging"])]
    [("title", "audit logging vulnerability")] (by decide)
  exact h3 [("vuln_exploit", ["vulnerability", "exploit"])] ("observability", ["audit", "logging"])
    [] rfl (by decide) (by intro c' hc'; fin_cases hc'; decide) (by intro c' hc'; fin_cases hc')

namespace RelevanceScorer

/-- `RelevanceScorer.count_keyword_matches`: one count per configured
keyword (across all topics) whose lower-cased form occurs in the
lower-cased text. -/
def count_keyword_matches (keywords : List (String × List String)) (text : String) : Nat :=
  (keywords.map (fun t =>
    (t.2.filter (fun kw => strContains (pyLower text) (pyLower kw))).length)).sum

/-- `RelevanceScorer.score`: `min(matches * 10, 100)` over
`f"{title} {content}"`. -/
def score (keywords : List (String × List String)) (item : Item) : ℚ :=
  ((min (count_keyword_matches keywords
      (itemGetD item "title" "" ++ " " ++ itemGetD item "content" "") * 10) 100 : ℕ) : ℚ)

end RelevanceScorer

namespace CredibilityScorer

/-- `CredibilityScorer.TIER_SCORES`. -/
def TIER_SCORES : List (String × ℕ) :=
  [("high", 100), ("medium", 70), ("low", 40), ("unknown", 50)]

/-- `CredibilityScorer.score`: lower-cased `credibility_tier` (default
key value "unknown") looked up in the tier table, defaulting to 50. -/
def score (item : Item) : ℚ :=
  (((List.lookup (pyLower (itemGetD item "credibility_tier" "unknown")) TIER_SCORES).getD 50
    : ℕ) : ℚ)

end CredibilityScorer

namespace ImpactScorer

/-- `ImpactScorer.HIGH_IMPACT_KEYWORDS` (verbatim; note that the source
never lower-cases the keywords themselves, only the text, so "CVE" cannot
match). -/
def HIGH_IMPACT_KEYWORDS : List String :=
  ["critical", "severe", "zero-day", "widespread", "exploit",
   "vulnerability", "breach", "CVE", "actively exploited",
   "major", "emergency", "urgent"]

/-- `ImpactScorer.MEDIUM_IMPACT_KEYWORDS`. -/
def MEDIUM_IMPACT_KEYWORDS : List String :=
  ["moderate", "important", "significant", "notable",
   "affected", "impacted", "exposure"]

/-- `ImpactScorer.count_impact_keywords`. -/
def count_impact_keywords (text : String) : Nat × Nat :=
  ((HIGH_IMPACT_KEYWORDS.filter (fun kw => strContains (pyLower text) kw)).length,
   (MEDIUM_IMPACT_KEYWORDS.filter (fun kw => strContains (pyLower text) kw)).length)

/-- `ImpactScorer.score`: `min(high*20 + medium*10, 100)`. -/
def score (item : Item) : ℚ :=
  ((min ((count_impact_keywords
        (itemGetD item "title" "" ++ " " ++ itemGetD item "content" "")).1 * 20
      + (count_impact_keywords
        (itemGetD item "title" "" ++ " " ++ itemGetD item "content" "")).2 * 10) 100 : ℕ) : ℚ)

end ImpactScorer

namespace FreshnessScorer

/-- `FreshnessScorer.parse_date` on the string/None values the pipeline
feeds it: falsy values and the sentinel map to `None`; otherwise the
external parser runs (returning a timestamp in seconds, `none` on a parse
exception). -/
def parse_date (parse : String → Option ℚ) (v : Option String) : Option ℚ :=
  match v with
  | none => none
  | some s => if s = "" ∨ s = "No date available" then none else parse s

/-- `FreshnessScorer.score`: 50 without a parsable date, otherwise the
age-bucketed step function (ages in seconds, one day = 86400). -/
def score (parse : String → Option ℚ) (now : ℚ) (item : Item) : ℚ :=
  match parse_date parse (itemGet item "published_date") with
  | none => 50
  | some d =>
    if now - d < 86400 then 100
    else if now - d < 7 * 86400 then 90
    else if now - d < 30 * 86400 then 70
    else if now - d < 90 * 86400 then 50
    else 30

end FreshnessScorer

namespace PracticalityScorer

/-- `PracticalityScorer.PRACTICAL_KEYWORDS`. -/
def PRACTICAL_KEYWORDS : List String :=
  ["mitigation", "remediation", "fix", "patch", "solution",
   "recommendation", "best practice", "how to", "guide",
   "implementation", "defense", "prevention", "detection",
   "response", "control", "configuration", "setting"]

/-- `PracticalityScorer.count_practical_keywords`. -/
def count_practical_keywords (text : String) : Nat :=
  (PRACTICAL_KEYWORDS.filter (fun kw => strContains (pyLower text) kw)).length

/-- `PracticalityScorer.score`: `min(count * 20, 100)`. -/
def score (item : Item) : ℚ :=
  ((min (count_practical_keywords
      (itemGetD item "title" "" ++ " " ++ itemGetD item "content" "") * 20) 100 : ℕ) : ℚ)

end PracticalityScorer

namespace ScoreWeights

/-- `ScoreWeights.get_weight`: the configured weight, 0.0 for a dimension
absent from the table. -/
def get_weight (weights : List (String × ℚ)) (dimension : String) : ℚ :=
  (List.lookup dimension weights).getD 0

/-- `ScoreWeights.calculate_weighted_score`: fold over the scores dict,
accumulating `weight * score`. -/
def calculate_weighted_score (weights : List (String × ℚ)) (scores : List (String × ℚ)) : ℚ :=
  scores.foldl (fun acc p => acc + get_weight weights p.1 * p.2) 0

/-- The hardcoded default weights of `ScoreWeights._load_weights`. -/
def default_weights : List (String × ℚ) :=
  [("relevance", 35/100), ("credibility", 25/100), ("impact", 15/100),
   ("freshness", 15/100), ("practicality", 10/100)]

end ScoreWeights

lemma lookup_getD_mem_or (l : List (String × ℕ)) (k : String) (d : ℕ) :
    (List.lookup k l).getD d = d ∨ (List.lookup k l).getD d ∈ l.map Prod.snd := by
  induction l with
  | nil => exact Or.inl rfl
  | cons p t ih =>
    obtain ⟨a, b⟩ := p
    cases hb : (k == a)
    · simp only [List.lookup, hb]
      rcases ih with h | h
      · exact Or.inl h
      · exact Or.inr (by simp only [List.map_cons]; exact List.mem_cons_of_mem _ h)
    · simp only [List.lookup, hb, Option.getD_some]
      exact Or.inr (by simp only [List.map_cons]; exact List.mem_cons_self _ _)

/-- Claim C7: each dimension scorer is a total function of the item and
treats malformed or absent fields as documented defaults — a missing or
unrecognized `credibility_tier` yields 50; a missing, sentinel-valued or
unparseable `published_date` yields freshness 50; and the keyword scorers
treat missing title and content as empty strings (scoring such an item
like the empty item). -/
theorem C7_scorers_never_raise :
    (∀ item : Item, itemGet item "credibility_tier" = none →
      CredibilityScorer.score item = 50) ∧
    (∀ (item : Item) (t : String), itemGet item "credibility_tier" = some t →
      List.lookup (pyLower t) CredibilityScorer.TIER_SCORES = none →
      CredibilityScorer.score item = 50) ∧
    (∀ (parse : String → Option ℚ) (now : ℚ) (item : Item),
      itemGet item "published_date" = none → FreshnessScorer.score parse now item = 50) ∧
    (∀ (parse : String → Option ℚ) (now : ℚ) (item : Item),
      itemGet item "published_date" = some "No date available" →
      FreshnessScorer.score parse now item = 50) ∧
    (∀ (parse : String → Option ℚ) (now : ℚ) (item : Item) (s : String),
      itemGet item "published_date" = some s → parse s = none →
      FreshnessScorer.score parse now item = 50) ∧
    (∀ (keywords : List (String × List String)) (item : Item),
      itemGet item "title" = none → itemGet item "content" = none →
      RelevanceScorer.score keywords item = RelevanceScorer.score keywords []) ∧
    (∀ item : Item, itemGet item "title" = none → itemGet item "content" = none →
      ImpactScorer.score item = ImpactScorer.score []) ∧
    (∀ item : Item, itemGet item "title" = none → itemGet item "content" = none →
      PracticalityScorer.score item = PracticalityScorer.score []) := by
  refine ⟨?_, ?_, ?_, ?_, ?_, ?_, ?_, ?_⟩
  · intro item h
    simp only [CredibilityScorer.score, itemGetD, h]
    exact_mod_cast rfl
  · intro item t h hl
    simp only [CredibilityScorer.score, itemGetD, h, Option.getD_some]
    rw [hl]
    norm_num
  · intro parse now item h
    simp only [FreshnessScorer.score, FreshnessScorer.parse_date, h]
  · intro parse now item h
    simp only [FreshnessScorer.score, FreshnessScorer.parse_date, h]
    simp
  · intro parse now item s h hp
    simp only [FreshnessScorer.score, FreshnessScorer.parse_date, h]
    by_cases hs : s = "" ∨ s = "No date available"
    · rw [if_pos hs]
    · rw [if_neg hs, hp]
  · intro keywords item h1 h2
    simp only [RelevanceScorer.score, itemGetD, h1, h2]
    rfl
  · intro item h1 h2
    simp only [ImpactScorer.score, itemGetD, h1, h2]
    rfl
  · intro item h1 h2
    simp only [PracticalityScorer.score, itemGetD, h1, h2]
    rfl

/-- Witness for `C7_scorers_never_raise` at concrete malformed items: no
credibility tier, an unparseable date, and a field-free item for the
relevance scorer. -/
theorem C7_scorers_witness :
    CredibilityScorer.score [("url", "u")] = 50 ∧
    FreshnessScorer.score (fun _ => none) 0 [("published_date", "not a date")] = 50 ∧
    RelevanceScorer.score [] [("url", "u")] = RelevanceScorer.score [] [] := by
  obtain ⟨h1, -, -, -, h5, h6, -, -⟩ := C7_scorers_never_raise
  exact ⟨h1 [("url", "u")] rfl,
    h5 (fun _ => none) 0 [("published_date", "not a date")] "not a date" rfl rfl,
    h6 [] [("url", "u")] rfl rfl⟩

lemma min100_bounds (n : ℕ) : (0 : ℚ) ≤ ((min n 100 : ℕ) : ℚ) ∧ ((min n 100 : ℕ) : ℚ) ≤ 100 :=
  ⟨Nat.cast_nonneg _, by exact_mod_cast Nat.min_le_right n 100⟩

/-- Claim C8: every dimension scorer returns a value in [0, 100]; the
keyword scorers compute exactly the documented capped formulas
`min(matches*10, 100)`, `min(high*20 + medium*10, 100)` and
`min(matches*20, 100)`. -/
theorem C8_scorer_bounds (keywords : List (String × List String))
    (parse : String → Option ℚ) (now : ℚ) (item : Item) :
    (0 ≤ RelevanceScorer.score keywords item ∧ RelevanceScorer.score keywords item ≤ 100) ∧
    (0 ≤ CredibilityScorer.score item ∧ CredibilityScorer.score item ≤ 100) ∧
    (0 ≤ ImpactScorer.score item ∧ ImpactScorer.score item ≤ 100) ∧
    (0 ≤ FreshnessScorer.score parse now item ∧ FreshnessScorer.score parse now item ≤ 100) ∧
    (0 ≤ PracticalityScorer.score item ∧ PracticalityScorer.score item ≤ 100) ∧
    RelevanceScorer.score keywords item
      = ((min (RelevanceScorer.count_keyword_matches keywords
          (itemGetD item "title" "" ++ " " ++ itemGetD item "content" "") * 10) 100 : ℕ) : ℚ) ∧
    ImpactScorer.score item
      = ((min ((ImpactScorer.count_impact_keywords
            (itemGetD item "title" "" ++ " " ++ itemGetD item "content" "")).1 * 20
          + (ImpactScorer.count_impact_keywords
            (itemGetD item "title" "" ++ " " ++ itemGetD item "content" "")).2 * 10)
          100 : ℕ) : ℚ) ∧
    PracticalityScorer.score item
      = ((min (PracticalityScorer.count_practical_keywords
          (itemGetD item "title" "" ++ " " ++ itemGetD item "content" "") * 20) 100 : ℕ) : ℚ) := by
  refine ⟨min100_bounds _, ?_, min100_bounds _, ?_, min100_bounds _, rfl, rfl, rfl⟩
  · have hb := lookup_getD_mem_or CredibilityScorer.TIER_SCORES
      (pyLower (itemGetD item "credibility_tier" "unknown")) 50
    simp only [CredibilityScorer.score]
    rcases hb with h | h
    · rw [h]; norm_num
    · rw [show CredibilityScorer.TIER_SCORES.map Prod.snd = [100, 70, 40, 50] from rfl] at h
      simp only [List.mem_cons, List.not_mem_nil, or_false] at h
      rcases h with h | h | h | h <;> rw [h] <;> norm_num
  · unfold FreshnessScorer.score
    cases FreshnessScorer.parse_date parse (itemGet item "published_date") with
    | none => norm_num
    | some d =>
      dsimp only
      split_ifs <;> norm_num

lemma foldl_add_weighted (w : List (String × ℚ)) :
    ∀ (scores : List (String × ℚ)) (acc : ℚ),
      scores.foldl (fun acc p => acc + ScoreWeights.get_weight w p.1 * p.2) acc
        = acc + (scores.map (fun p => ScoreWeights.get_weight w p.1 * p.2)).sum := by
  intro scores
  induction scores with
  | nil => intro acc; simp
  | cons p t ih =>
    intro acc
    rw [List.foldl_cons, ih, List.map_cons, List.sum_cons]
    ring

/-- Claim C9: aggregation returns the sum, over the dimensions present in
the scores dict, of `weight[d] * score[d]`; a dimension absent from the
weight table contributes weight 0; nothing is clamped or renormalized, so
scoring every dimension 100 gives 100 times the sum of the involved
weights, and five 50s under the default weights give exactly 50. -/
theorem C9_weighted_aggregation (weights scores : List (String × ℚ)) (dims : List String) :
    ScoreWeights.calculate_weighted_score weights scores
        = (scores.map (fun p => ScoreWeights.get_weight weights p.1 * p.2)).sum ∧
    (∀ d, List.lookup d weights = none → ScoreWeights.get_weight weights d = 0) ∧
    ScoreWeights.calculate_weighted_score weights (dims.map (fun d => (d, 100)))
        = 100 * (dims.map (fun d => ScoreWeights.get_weight weights d)).sum ∧
    ScoreWeights.calculate_weighted_score ScoreWeights.default_weights
      [("relevance", 50), ("credibility", 50), ("impact", 50), ("freshness", 50),
        ("practicality", 50)] = 50 := by
  refine ⟨?_, ?_, ?_, ?_⟩
  · rw [ScoreWeights.calculate_weighted_score, foldl_add_weighted, zero_add]
  · intro d h
    rw [ScoreWeights.get_weight, h]
    rfl
  · rw [ScoreWeights.calculate_weighted_score, foldl_add_weighted, zero_add, List.map_map]
    induction dims with
    | nil => simp
    | cons d t ih =>
      simp only [List.map_cons, List.sum_cons, Function.comp] at ih ⊢
      rw [ih]
      ring
  · rw [ScoreWeights.calculate_weighted_score, foldl_add_weighted, zero_add]
    simp only [List.map_cons, List.map_nil, List.sum_cons, List.sum_nil]
    rw [show ScoreWeights.get_weight ScoreWeights.default_weights "relevance"
          = 35/100 from rfl,
        show ScoreWeights.get_weight ScoreWeights.default_weights "credibility"
          = 25/100 from rfl,
        show ScoreWeights.get_weight ScoreWeights.default_weights "impact"
          = 15/100 from rfl,
        show ScoreWeights.get_weight ScoreWeights.default_weights "freshness"
          = 15/100 from rfl,
        show ScoreWeights.get_weight ScoreWeights.default_weights "practicality"
          = 10/100 from rfl]
    norm_num

/-- Witness for `C9_weighted_aggregation`: a dimension missing from the
default weight table gets weight 0, and the all-50 default-weight
aggregate is 50. -/
theorem C9_weighted_aggregation_witness :
    ScoreWeights.get_weight ScoreWeights.default_weights "volatility" = 0 ∧
    ScoreWeights.calculate_weighted_score ScoreWeights.default_weights
      [("relevance", 50), ("credibility", 50), ("impact", 50), ("freshness", 50),
        ("practicality", 50)] = 50 := by
  obtain ⟨-, h2, -, h4⟩ := C9_weighted_aggregation ScoreWeights.default_weights [] []
  exact ⟨h2 "volatility" rfl, h4⟩
